import Mathlib

/-!
Shallow embedding of the statement reporting engine of the union-expense
repository (src/pages/ReportsPage.tsx and the query helpers it uses).

Conventions of the embedding:
* ISO date strings (`ts`) and `created_at` stamps are embedded as naturals;
  the code never inspects them except to compare/order them, and ISO-8601
  strings compare exactly like their numeric timestamps.
* JavaScript numbers are embedded as rationals.  `Number(x)` applied to an
  unparseable amount yields `NaN`; an amount is therefore `Option ℚ`, with
  `none` standing for NaN.  `x || 0` is `Option.getD x 0` (both `NaN` and `0`
  are falsy), and addition involving NaN is the `Option.bind` fold `optSum`.
* `String.prototype.trim` is embedded as `jsTrim` on the character list
  (Lean's builtin `String.trim` is kernel-opaque).
* `localeCompare(·, undefined, { sensitivity: "accent" })` is embedded as the
  code-point lexicographic comparison `localeLe`; for the plain ASCII area
  labels this is order-isomorphic to the locale order.
* `Array.prototype.sort` is required to be stable by the JS spec, and a
  stable sort for a total comparator is unique, so it is embedded as
  `List.insertionSort`.
-/

namespace UnionExpense

/-- Transaction polarity as stored in the `journal` table. -/
inductive Kind where
  | INCOMING
  | OUTGOING
deriving DecidableEq, Repr

/-- The embedded division record joined onto a journal row
(`division:divisions(name,area)`). -/
structure DivisionRef where
  name : String
  area : Option String
deriving DecidableEq, Repr

/-- A fetched journal row, as returned by the report query in
ReportsPage.tsx (`Row`).  `amount` is the result of `Number(·)`: `none`
models NaN from an unparseable amount. -/
structure Row where
  ts : ℕ
  kind : Kind
  amount : Option ℚ
  notes : Option String
  division : Option DivisionRef
  category : Option String
  person : Option String
  group : Option String
deriving DecidableEq, Repr

/-- A materialized display row (the objects built in `uiRows` and in
`buildDoc`'s `bodyRaw`). -/
structure URow where
  date : ℕ
  kind : Kind
  division : String
  area : String
  tagged : String
  category : String
  incomingNum : ℚ
  expenseNum : ℚ
  runningNum : ℚ
  notes : String
deriving DecidableEq, Repr

/-- The toggle-independent payload of a materialized row: everything except
the running-balance cell. -/
structure URowData where
  date : ℕ
  kind : Kind
  division : String
  area : String
  tagged : String
  category : String
  incomingNum : ℚ
  expenseNum : ℚ
  notes : String
deriving DecidableEq, Repr

/-- Forget the running-balance cell of a materialized row. -/
def payload (r : URow) : URowData :=
  { date := r.date, kind := r.kind, division := r.division, area := r.area,
    tagged := r.tagged, category := r.category,
    incomingNum := r.incomingNum, expenseNum := r.expenseNum, notes := r.notes }

/-- The materializer shared by `uiRows` and `buildDoc`: resolve names with
the em-dash placeholder, split the amount by kind, coerce an unparseable
amount to 0 (`Number(r.amount) || 0`). -/
def matRow (r : Row) : URow :=
  let amt := r.amount.getD 0
  { date := r.ts
    kind := r.kind
    division := (r.division.map DivisionRef.name).getD "—"
    area := (r.division.bind DivisionRef.area).getD "—"
    tagged :=
      let p := r.person.getD ""
      if p ≠ "" then p else
        let g := r.group.getD ""
        if g ≠ "" then g else "—"
    category := r.category.getD "—"
    incomingNum := if r.kind = Kind.INCOMING then amt else 0
    expenseNum := if r.kind = Kind.OUTGOING then amt else 0
    runningNum := 0
    notes := r.notes.getD "—" }

/-- Code-point lexicographic comparison on character lists; the embedding of
the `localeCompare` comparator used for the area re-sort. -/
def charsLe : List Char → List Char → Bool
  | [], _ => true
  | _ :: _, [] => false
  | a :: as, b :: bs =>
    if a.val.toNat < b.val.toNat then true
    else if b.val.toNat < a.val.toNat then false
    else charsLe as bs

/-- `a.localeCompare(b, undefined, { sensitivity: "accent" }) ≤ 0`, embedded
over code points. -/
def localeLe (a b : String) : Prop := charsLe a.data b.data = true

instance : DecidableRel localeLe := fun a b => by
  unfold localeLe; infer_instance

instance areaLeDec : DecidableRel (fun x y : URow => localeLe x.area y.area) :=
  fun x y => inferInstanceAs (Decidable (localeLe x.area y.area))

/-- `list.sort((a, b) => a.area.localeCompare(b.area, …))` — the stable
presentation re-sort applied when the Area toggle is on. -/
def areaSorted (l : List URow) : List URow :=
  List.insertionSort (fun x y => localeLe x.area y.area) l

/-- `running += incomingNum − expenseNum` threaded down the displayed list,
writing each row's accumulator value into its `runningNum` cell. -/
def withRunning (acc : ℚ) : List URow → List URow
  | [] => []
  | r :: rest =>
    let acc' := acc + (r.incomingNum - r.expenseNum)
    { r with runningNum := acc' } :: withRunning acc' rest

/-- The materialized list in fetch order (`(rows ?? []).map(...)`). -/
def matList (rows : List Row) : List URow := rows.map matRow

/-- `uiRows` of ReportsPage.tsx: materialize in fetch order, re-sort by area
if the Area toggle is on, then (if the running toggle is on) compute the
running balance in the displayed order.  `buildDoc`'s `bodyRaw` performs the
identical computation. -/
def uiRows (includeArea includeCumulative : Bool) (rows : List Row) : List URow :=
  let l := matList rows
  let l := if includeArea then areaSorted l else l
  if includeCumulative then withRunning 0 l else l

/-- NaN-propagating left fold of JavaScript `+` over a list of parsed
amounts, starting from the numeric literal 0. -/
def optSum (l : List (Option ℚ)) : Option ℚ :=
  l.foldl (fun s a => s.bind fun v => a.map fun w => v + w) (some 0)

/-- `totals.inc`: `rows.filter(r => r.kind === "INCOMING").reduce((s, r) =>
s + Number(r.amount), 0)`.  Note there is no `|| 0` here. -/
def totalsInc (rows : List Row) : Option ℚ :=
  optSum ((rows.filter fun r => decide (r.kind = Kind.INCOMING)).map Row.amount)

/-- `totals.out`: the same fold over the OUTGOING rows. -/
def totalsOut (rows : List Row) : Option ℚ :=
  optSum ((rows.filter fun r => decide (r.kind = Kind.OUTGOING)).map Row.amount)

/-- `totals.net = inc - out` (JavaScript subtraction, NaN-propagating). -/
def totalsNet (rows : List Row) : Option ℚ :=
  (totalsInc rows).bind fun i => (totalsOut rows).map fun o => i - o

/-- Sum of the materialized `incomingNum` cells over the whole row set. -/
def sumIncoming (rows : List Row) : ℚ :=
  (rows.map fun r => (matRow r).incomingNum).sum

/-- Sum of the materialized `expenseNum` cells over the whole row set. -/
def sumExpense (rows : List Row) : ℚ :=
  (rows.map fun r => (matRow r).expenseNum).sum

/-- `kindLabel` of src/lib/format.ts for the two stored kinds. -/
def kindLabel : Kind → String
  | Kind.INCOMING => "Income"
  | Kind.OUTGOING => "Expenses"

/-- One object of the `list` built inside `downloadCSV`.  The amount split
here has no `|| 0`, so `incomingNum`/`expenseNum` can be NaN (`none`). -/
structure CsvRow where
  ts : ℕ
  kindL : String
  division : String
  area : String
  person : String
  group : String
  category : String
  incomingNum : Option ℚ
  expenseNum : Option ℚ
  notes : String
deriving DecidableEq, Repr

/-- The per-row mapping of `downloadCSV` (empty-string fallbacks, amounts
split by kind without coercion). -/
def csvItem (r : Row) : CsvRow :=
  { ts := r.ts
    kindL := kindLabel r.kind
    division := (r.division.map DivisionRef.name).getD ""
    area := (r.division.bind DivisionRef.area).getD ""
    person := r.person.getD ""
    group := r.group.getD ""
    category := r.category.getD ""
    incomingNum := if r.kind = Kind.INCOMING then r.amount else some 0
    expenseNum := if r.kind = Kind.OUTGOING then r.amount else some 0
    notes := r.notes.getD "" }

instance csvAreaLeDec : DecidableRel (fun x y : CsvRow => localeLe x.area y.area) :=
  fun x y => inferInstanceAs (Decidable (localeLe x.area y.area))

/-- The `list` of `downloadCSV` after the optional area re-sort. -/
def csvList (includeArea : Bool) (rows : List Row) : List CsvRow :=
  let l := rows.map csvItem
  if includeArea then List.insertionSort (fun x y => localeLe x.area y.area) l else l

/-- The running balances attached to the CSV records:
`running += (r.incomingNum || 0) - (r.expenseNum || 0)`. -/
def csvRunning (acc : ℚ) : List CsvRow → List ℚ
  | [] => []
  | r :: rest =>
    let acc' := acc + (r.incomingNum.getD 0 - r.expenseNum.getD 0)
    acc' :: csvRunning acc' rest

/-- Rendering of a CSV amount cell: `x ? x.toFixed(2) : ""`.  Both `0` and
NaN are falsy, so both render as the empty cell (`none`). -/
def csvCellNum (x : Option ℚ) : Option ℚ :=
  x.bind fun v => if v = 0 then none else some v

/-- The CSV header row.  `Papa.unparse(csvRows, { header: true })` emits the
object keys in insertion order; `downloadCSV` always sets the ten fixed keys
and appends `Running` when the running toggle is on. -/
def csvHeaders (includeCumulative : Bool) : List String :=
  ["Date", "Kind", "Division", "Area", "Person", "Group", "Category",
   "Incoming", "Expense", "Notes"] ++
    (if includeCumulative then ["Running"] else [])

/-- The UI header list (`visibleHeaders`, ReportsPage.tsx lines 1556-1564):
pushed in order with the optional columns guarded by their toggles. -/
def visibleHeaders (includeKind includeArea includeTagged includeCumulative includeNotes : Bool) :
    List String :=
  ["Date"] ++ (if includeKind then ["Kind"] else []) ++ ["Division"] ++
    (if includeArea then ["Area"] else []) ++
    (if includeTagged then ["Tagged To"] else []) ++
    ["Category", "Incoming", "Expense"] ++
    (if includeCumulative then ["Running"] else []) ++
    (if includeNotes then ["Notes"] else [])

/-- The PDF header list (`headers` built in `buildDoc`, lines 1300-1308). -/
def pdfHeaders (includeKind includeArea includeTagged includeCumulative includeNotes : Bool) :
    List String :=
  ["Date"] ++ (if includeKind then ["Kind"] else []) ++ ["Division"] ++
    (if includeArea then ["Area"] else []) ++
    (if includeTagged then ["Tagged To"] else []) ++
    ["Category", "Incoming", "Expense"] ++
    (if includeCumulative then ["Running"] else []) ++
    (if includeNotes then ["Notes"] else [])

/-- A cell of the PDF totals row: either literal text or a formatted amount
(kept as the rational that is passed to `formatAmount`). -/
inductive Cell where
  | text (s : String)
  | amount (v : Option ℚ)
deriving DecidableEq, Repr

/-- The PDF grand-totals row (`totalsRow` in `buildDoc`): the label under
Date, the engine totals under Incoming and Expense, blank elsewhere. -/
def pdfTotalsRow (hs : List String) (rows : List Row) : List Cell :=
  hs.map fun h =>
    if h = "Date" then Cell.text "Totals"
    else if h = "Incoming" then Cell.amount (totalsInc rows)
    else if h = "Expense" then Cell.amount (totalsOut rows)
    else if h = "Running" then Cell.text ""
    else Cell.text ""

/-- A4 portrait page width in points as jsPDF reports it (595.28). -/
def pageW : ℚ := 59528 / 100

/-- `innerW = pageW - tableMargin.left - tableMargin.right` with 40-point
margins on both sides. -/
def innerW : ℚ := pageW - 40 - 40

/-- The `widthMap` nominal column widths, with the `?? 50` default. -/
def widthOf (h : String) : ℚ :=
  if h = "Date" then 70
  else if h = "Kind" then 60
  else if h = "Division" then 112
  else if h = "Area" then 80
  else if h = "Tagged To" then 92
  else if h = "Category" then 100
  else if h = "Incoming" then 60
  else if h = "Expense" then 60
  else if h = "Running" then 60
  else if h = "Notes" then 110
  else 50

/-- `[headers.indexOf("Incoming"), headers.indexOf("Expense"),
headers.indexOf("Running")].filter(i => i >= 0)` — the never-resized
numeric columns. -/
def fixedIdxs (hs : List String) : List ℕ :=
  [hs.findIdx? (fun h => h = "Incoming"),
   hs.findIdx? (fun h => h = "Expense"),
   hs.findIdx? (fun h => h = "Running")].filterMap id

/-- The width negotiation of `buildDoc` (lines 1324-1360): proportional
shrink of the scalable columns clamped at the 50-point floor when the
nominal total overflows the page, proportional grow clamped at the
450-point ceiling when it underflows, fixed columns untouched. -/
def baseCols (hs : List String) : List ℚ := hs.map widthOf

/-- The indexed base widths of the never-resized numeric columns. -/
def fixedPart (hs : List String) : List (ℕ × ℚ) :=
  (baseCols hs).enum.filter fun p => decide (p.1 ∈ fixedIdxs hs)

/-- The indexed base widths of the scalable columns (`scalableIdx` paired
with their widths). -/
def scalablePart (hs : List String) : List (ℕ × ℚ) :=
  (baseCols hs).enum.filter fun p => decide (p.1 ∉ fixedIdxs hs)

/-- `fixedSum`: total base width of the fixed columns. -/
def fixedSumOf (hs : List String) : ℚ := ((fixedPart hs).map Prod.snd).sum

/-- `scalableSum`: total base width of the scalable columns. -/
def scalableSumOf (hs : List String) : ℚ := ((scalablePart hs).map Prod.snd).sum

/-- The shrink `factor = scalableSum > 0 ? (innerW - fixedSum) / scalableSum
: 1`. -/
def shrinkFactorOf (hs : List String) : ℚ :=
  if 0 < scalableSumOf hs then (innerW - fixedSumOf hs) / scalableSumOf hs else 1

/-- The grow `share = scalableSum > 0 ? w / scalableSum :
1 / scalableIdx.length`. -/
def growShareOf (hs : List String) (w : ℚ) : ℚ :=
  if 0 < scalableSumOf hs then w / scalableSumOf hs
  else 1 / ((scalablePart hs).length : ℚ)

/-- The width negotiation of `buildDoc` (lines 1324-1360): proportional
shrink of the scalable columns clamped at the 50-point floor when the
nominal total overflows the page, proportional grow clamped at the
450-point ceiling (and 50-point floor) when it underflows, fixed columns
untouched in both branches. -/
def colWidths (hs : List String) : List ℚ :=
  if innerW < (baseCols hs).sum then
    (baseCols hs).enum.map fun p =>
      if p.1 ∈ fixedIdxs hs then p.2 else max 50 (p.2 * shrinkFactorOf hs)
  else if (baseCols hs).sum < innerW then
    if 0 < (scalablePart hs).length then
      (baseCols hs).enum.map fun p =>
        if p.1 ∈ fixedIdxs hs then p.2
        else
          min 450
            (max 50 (p.2 + (innerW - (baseCols hs).sum) * growShareOf hs p.2))
    else baseCols hs
  else baseCols hs

/-- No scalable column hits the 50-point floor when shrinking. -/
def noFloorClampShrink (hs : List String) : Prop :=
  ∀ p ∈ (baseCols hs).enum, p.1 ∉ fixedIdxs hs → 50 ≤ p.2 * shrinkFactorOf hs

/-- No scalable column hits the 50-point floor or the 450-point ceiling
when growing. -/
def noClampGrow (hs : List String) : Prop :=
  ∀ p ∈ (baseCols hs).enum, p.1 ∉ fixedIdxs hs →
    50 ≤ p.2 + (innerW - (baseCols hs).sum) * growShareOf hs p.2 ∧
      p.2 + (innerW - (baseCols hs).sum) * growShareOf hs p.2 ≤ 450

/-- `String.prototype.trim`, embedded over the character list. -/
def jsTrim (s : String) : String :=
  ⟨((s.data.dropWhile Char.isWhitespace).reverse.dropWhile Char.isWhitespace).reverse⟩

/-- A division reference record (`divisions` table: id, name, area). -/
structure Division where
  id : String
  name : String
  area : Option String
deriving DecidableEq, Repr

/-- Insertion into a JavaScript `Set` materialized as an ordered list. -/
def setAdd (l : List String) (x : String) : List String :=
  if x ∈ l then l else l ++ [x]

/-- `effectiveDivisionIds` (lines 959-968): directly selected division ids
unioned with the ids of divisions whose trimmed area label is a selected
area value; the area scan only runs when both lists are non-empty. -/
def effectiveDivisionIds (divisionIds areaValues : List String)
    (divisions : List Division) : List String :=
  let ids := divisionIds.foldl setAdd []
  if ¬areaValues.isEmpty ∧ ¬divisions.isEmpty then
    divisions.foldl
      (fun acc d =>
        if jsTrim (d.area.getD "") ≠ "" ∧ jsTrim (d.area.getD "") ∈ areaValues then
          setAdd acc d.id
        else acc)
      ids
  else ids

/-- The kind selector of the filter state. -/
inductive KindSel where
  | ALL
  | INCOMING
  | OUTGOING
deriving DecidableEq, Repr

/-- The filter selection feeding the report query. -/
structure Selection where
  dateFrom : ℕ
  dateTo : ℕ
  kindSel : KindSel
  divisionIds : List String
  areaValues : List String
  personIds : List String
  groupIds : List String
  categoryIds : List String
deriving DecidableEq, Repr

/-- A raw journal row as the store query sees it (foreign keys, not joined
names). -/
structure Txn where
  ts : ℕ
  createdAt : ℕ
  kind : Kind
  divisionId : Option String
  categoryId : Option String
  personId : Option String
  groupId : Option String
deriving DecidableEq, Repr

/-- PostgREST `in.(...)` on a nullable column: a null value matches no
membership list. -/
def optIn (o : Option String) (ids : List String) : Bool :=
  match o with
  | none => false
  | some x => decide (x ∈ ids)

/-- The kind predicate: applied only when the selector is not ALL. -/
def kindOk (ks : KindSel) (k : Kind) : Bool :=
  match ks with
  | KindSel.ALL => true
  | KindSel.INCOMING => decide (k = Kind.INCOMING)
  | KindSel.OUTGOING => decide (k = Kind.OUTGOING)

/-- The inclusive date-range predicate (`gte("ts", from).lte("ts", to)`). -/
def dateOk (sel : Selection) (t : Txn) : Bool :=
  decide (sel.dateFrom ≤ t.ts) && decide (t.ts ≤ sel.dateTo)

/-- The person/group combinator of `queryFn`: OR of the two memberships when
both are selected, a single membership when one is, no restriction when
neither is. -/
def pgPred (personIds groupIds : List String) (t : Txn) : Bool :=
  if ¬personIds.isEmpty ∧ ¬groupIds.isEmpty then
    optIn t.personId personIds || optIn t.groupId groupIds
  else if ¬personIds.isEmpty then optIn t.personId personIds
  else if ¬groupIds.isEmpty then optIn t.groupId groupIds
  else true

/-- The row predicate assembled by `queryFn` given the effective division id
set: date range, optional kind equality, optional division membership,
optional category membership, person/group combinator. -/
def matchesQuery (sel : Selection) (eff : List String) (t : Txn) : Bool :=
  dateOk sel t && kindOk sel.kindSel t.kind &&
    (eff.isEmpty || optIn t.divisionId eff) &&
    (sel.categoryIds.isEmpty || optIn t.categoryId sel.categoryIds) &&
    pgPred sel.personIds sel.groupIds t

/-- The canonical fetch order: `ts` descending, then `created_at`
descending. -/
def fetchLe (a b : Txn) : Prop :=
  b.ts < a.ts ∨ (b.ts = a.ts ∧ b.createdAt ≤ a.createdAt)

instance : DecidableRel fetchLe := fun a b => by
  unfold fetchLe; infer_instance

/-- Sort a result set into the canonical fetch order. -/
def sortFetch (l : List Txn) : List Txn := List.insertionSort fetchLe l

/-- The full store query of `queryFn` over an embedded ledger. -/
def runQuery (sel : Selection) (divisions : List Division) (txns : List Txn) : List Txn :=
  sortFetch (txns.filter
    (matchesQuery sel (effectiveDivisionIds sel.divisionIds sel.areaValues divisions)))

/-- The same query with the division membership predicate structurally
absent. -/
def queryNoDivision (sel : Selection) (txns : List Txn) : List Txn :=
  sortFetch (txns.filter fun t =>
    dateOk sel t && kindOk sel.kindSel t.kind &&
      (sel.categoryIds.isEmpty || optIn t.categoryId sel.categoryIds) &&
      pgPred sel.personIds sel.groupIds t)

/-- The same query with the category membership predicate structurally
absent. -/
def queryNoCategory (sel : Selection) (divisions : List Division) (txns : List Txn) : List Txn :=
  sortFetch (txns.filter fun t =>
    dateOk sel t && kindOk sel.kindSel t.kind &&
      ((effectiveDivisionIds sel.divisionIds sel.areaValues divisions).isEmpty ||
        optIn t.divisionId (effectiveDivisionIds sel.divisionIds sel.areaValues divisions)) &&
      pgPred sel.personIds sel.groupIds t)

/-- The same query with no person predicate: only the group membership (if
any) restricts the tagged-to dimension. -/
def queryNoPerson (sel : Selection) (divisions : List Division) (txns : List Txn) : List Txn :=
  sortFetch (txns.filter fun t =>
    dateOk sel t && kindOk sel.kindSel t.kind &&
      ((effectiveDivisionIds sel.divisionIds sel.areaValues divisions).isEmpty ||
        optIn t.divisionId (effectiveDivisionIds sel.divisionIds sel.areaValues divisions)) &&
      (sel.categoryIds.isEmpty || optIn t.categoryId sel.categoryIds) &&
      (sel.groupIds.isEmpty || optIn t.groupId sel.groupIds))

/-- The same query with no group predicate: only the person membership (if
any) restricts the tagged-to dimension. -/
def queryNoGroup (sel : Selection) (divisions : List Division) (txns : List Txn) : List Txn :=
  sortFetch (txns.filter fun t =>
    dateOk sel t && kindOk sel.kindSel t.kind &&
      ((effectiveDivisionIds sel.divisionIds sel.areaValues divisions).isEmpty ||
        optIn t.divisionId (effectiveDivisionIds sel.divisionIds sel.areaValues divisions)) &&
      (sel.categoryIds.isEmpty || optIn t.categoryId sel.categoryIds) &&
      (sel.personIds.isEmpty || optIn t.personId sel.personIds))

/-- The unfiltered baseline: only the date range and kind predicates. -/
def dateKindOnly (sel : Selection) (txns : List Txn) : List Txn :=
  sortFetch (txns.filter fun t => dateOk sel t && kindOk sel.kindSel t.kind)

/-- The date-range-only ledger slice. -/
def dateRangeOnly (sel : Selection) (txns : List Txn) : List Txn :=
  sortFetch (txns.filter fun t => dateOk sel t)

/-- Ascending date order on materialized rows. -/
def dateLeU (a b : URow) : Prop := a.date ≤ b.date

instance : DecidableRel dateLeU := fun a b => by
  unfold dateLeU; infer_instance

/-- Modelled from the spec: the two-sided alignment mode of §4.3 has no
implementation under src/ (the ReportsPage variant shipped there only
implements the chronological layout), so it is modelled from the spec's
words: partition the materialized rows into an income list and an expense
list, sort each ascending by date, and zip them positionally up to
`n = max(len(incomeList), len(expenseList))`, leaving the exhausted side
absent. -/
def twoSidedRows (rows : List URow) : List (Option URow × Option URow) :=
  let inc := List.insertionSort dateLeU (rows.filter fun r => decide (r.kind = Kind.INCOMING))
  let ex := List.insertionSort dateLeU (rows.filter fun r => decide (r.kind = Kind.OUTGOING))
  let n := max inc.length ex.length
  (List.range n).map fun i => (inc[i]?, ex[i]?)

/-! ## Helper lemmas -/

theorem payload_set_running (r : URow) (v : ℚ) :
    payload { r with runningNum := v } = payload r := rfl

theorem withRunning_map_payload (acc : ℚ) (l : List URow) :
    (withRunning acc l).map payload = l.map payload := by
  induction l generalizing acc with
  | nil => rfl
  | cons r rest ih => simp [withRunning, ih, payload_set_running]

theorem withRunning_length (acc : ℚ) (l : List URow) :
    (withRunning acc l).length = l.length := by
  induction l generalizing acc with
  | nil => rfl
  | cons r rest ih => simp [withRunning, ih]

theorem map_of_payload_map {β : Type} {l l' : List URow} (f : URowData → β)
    (h : l.map payload = l'.map payload) :
    l.map (fun r => f (payload r)) = l'.map (fun r => f (payload r)) := by
  have := congrArg (List.map f) h
  simpa [List.map_map, Function.comp] using this

theorem withRunning_map_inc (acc : ℚ) (l : List URow) :
    (withRunning acc l).map URow.incomingNum = l.map URow.incomingNum := by
  have h := map_of_payload_map URowData.incomingNum (withRunning_map_payload acc l)
  simpa using h

theorem withRunning_map_exp (acc : ℚ) (l : List URow) :
    (withRunning acc l).map URow.expenseNum = l.map URow.expenseNum := by
  have h := map_of_payload_map URowData.expenseNum (withRunning_map_payload acc l)
  simpa using h

theorem withRunning_running (l : List URow) :
    ∀ (acc : ℚ) (i : ℕ) (h : i < (withRunning acc l).length),
      ((withRunning acc l).get ⟨i, h⟩).runningNum =
        acc + ((l.take (i + 1)).map fun r => r.incomingNum - r.expenseNum).sum := by
  induction l with
  | nil => intro acc i h; simp [withRunning] at h
  | cons r rest ih =>
    intro acc i h
    cases i with
    | zero => simp [withRunning]
    | succ i =>
      have h' : i < (withRunning (acc + (r.incomingNum - r.expenseNum)) rest).length := by
        simpa [withRunning] using h
      have := ih (acc + (r.incomingNum - r.expenseNum)) i h'
      simp only [withRunning, List.get_cons_succ, List.take_succ_cons, List.map_cons,
        List.sum_cons] at this ⊢
      rw [this]; ring

theorem optSum_all_some (l : List (Option ℚ)) :
    ∀ v : ℚ, (∀ a ∈ l, a.isSome) →
      l.foldl (fun s a => s.bind fun x => a.map fun w => x + w) (some v) =
        some (v + (l.map fun a => a.getD 0).sum) := by
  induction l with
  | nil => intro v _; simp
  | cons a rest ih =>
    intro v h
    obtain ⟨w, hw⟩ := Option.isSome_iff_exists.mp (h a (by simp))
    have hrest : ∀ b ∈ rest, b.isSome := fun b hb => h b (by simp [hb])
    simp only [List.foldl_cons, hw, Option.some_bind, Option.map_some', Option.getD_some,
      List.map_cons, List.sum_cons]
    rw [ih (v + w) hrest]
    ring_nf

/-! ## C8: amount split and per-row mutual exclusivity (chronological mode) -/

/-- C8 (amended): in the (only) chronological mode, every materialized row
splits the amount by kind — `incomingNum` is the coerced amount for an
INCOMING row and 0 otherwise, `expenseNum` the coerced amount for an
OUTGOING row and 0 otherwise — so AT MOST one of `incomingNum > 0`,
`expenseNum > 0` holds on any row, and EXACTLY one holds whenever the row's
amount parses to a positive number; a zero (or unparseable) amount leaves
both cells 0, so neither is positive. -/
theorem row_amount_split_at_most_one (r : Row) :
    ((matRow r).incomingNum = if r.kind = Kind.INCOMING then r.amount.getD 0 else 0) ∧
    ((matRow r).expenseNum = if r.kind = Kind.OUTGOING then r.amount.getD 0 else 0) ∧
    (¬ (0 < (matRow r).incomingNum ∧ 0 < (matRow r).expenseNum)) ∧
    (∀ q : ℚ, r.amount = some q → 0 < q →
      ((0 < (matRow r).incomingNum ∧ ¬ 0 < (matRow r).expenseNum) ∨
        (¬ 0 < (matRow r).incomingNum ∧ 0 < (matRow r).expenseNum))) := by
  refine ⟨rfl, rfl, ?_, ?_⟩
  · cases hk : r.kind <;>
      simp [matRow, hk]
  · intro q hq hpos
    cases hk : r.kind <;>
      simp [matRow, hq, hk, hpos, not_lt, le_refl]

/-- Concrete input for the C8 witness: a positive INCOMING row. -/
def c8row : Row :=
  { ts := 1, kind := Kind.INCOMING, amount := some 5, notes := none,
    division := none, category := none, person := none, group := none }

theorem row_amount_split_at_most_one_witness :
    c8row.amount = some 5 ∧ (0 : ℚ) < 5 ∧
      (¬ (0 < (matRow c8row).incomingNum ∧ 0 < (matRow c8row).expenseNum)) ∧
      ((0 < (matRow c8row).incomingNum ∧ ¬ 0 < (matRow c8row).expenseNum) ∨
        (¬ 0 < (matRow c8row).incomingNum ∧ 0 < (matRow c8row).expenseNum)) :=
  ⟨rfl, by norm_num, (row_amount_split_at_most_one c8row).2.2.1,
    (row_amount_split_at_most_one c8row).2.2.2 5 rfl (by norm_num)⟩

/-- The C8 counterexample input: a zero-amount INCOMING journal row, as the
standard-expenses bulk insert can post (`amount: Number(t.default_amount ??
0)` with only one row required positive). -/
def c8zero : Row :=
  { ts := 1, kind := Kind.INCOMING, amount := some 0, notes := none,
    division := none, category := none, person := none, group := none }

/-- C8 counterexample: on a materialized zero-amount row both
`incomingNum` and `expenseNum` are 0, so NEITHER is positive and the
claimed "exactly one of incomingAmount > 0 or expenseAmount > 0" fails. -/
theorem zero_amount_exclusivity_counterexample :
    ¬ ((0 < (matRow c8zero).incomingNum ∧ ¬ 0 < (matRow c8zero).expenseNum) ∨
        (¬ 0 < (matRow c8zero).incomingNum ∧ 0 < (matRow c8zero).expenseNum)) := by
  norm_num [matRow, c8zero]

/-! ## C9: two-sided display row count (spec-modelled) -/

/-- C9: in two-sided alignment mode the number of emitted display rows is
exactly `max(len(incomeList), len(expenseList))` over the kind-partitioned,
date-sorted lists — no row dropped, none fabricated beyond the max.  The
mode is modelled from the spec (§4.3), since src/ ships only the
chronological layout. -/
theorem twoSided_row_count (rows : List URow) :
    (twoSidedRows rows).length =
      max (rows.filter fun r => decide (r.kind = Kind.INCOMING)).length
        (rows.filter fun r => decide (r.kind = Kind.OUTGOING)).length := by
  simp [twoSidedRows, List.length_insertionSort]

/-! ## C1: emitted order and running balance in chronological mode -/

theorem withRunning_map_date (acc : ℚ) (l : List URow) :
    (withRunning acc l).map URow.date = l.map URow.date := by
  have h := map_of_payload_map URowData.date (withRunning_map_payload acc l)
  simpa using h

/-- C1 (amended): with the area sort off and the running toggle on, the
emitted rows keep the fetch order exactly (the store returns date
descending, newest insertion first), and each emitted row's running balance
is the 0-based prefix sum of `incomingAmount − expenseAmount` over that
emitted (fetch) order — not over an ascending re-sort, which the code never
performs. -/
theorem chronological_emit_fetch_order (rows : List Row) :
    ((uiRows false true rows).map payload = (matList rows).map payload) ∧
    ((uiRows false true rows).map URow.date = rows.map Row.ts) ∧
    ∀ (i : ℕ) (h : i < (uiRows false true rows).length),
      ((uiRows false true rows).get ⟨i, h⟩).runningNum =
        (((matList rows).take (i + 1)).map fun r => r.incomingNum - r.expenseNum).sum := by
  have hoff : uiRows false true rows = withRunning 0 (matList rows) := by
    simp [uiRows]
  refine ⟨?_, ?_, ?_⟩
  · rw [hoff, withRunning_map_payload]
  · rw [hoff, withRunning_map_date]
    simp [matList, List.map_map, Function.comp, matRow]
  · intro i h
    have h' : i < (withRunning 0 (matList rows)).length := by
      rw [← hoff]; exact h
    have hg := congrArg URow.runningNum (List.get_of_eq hoff ⟨i, h⟩)
    rw [hg]
    have := withRunning_running (matList rows) 0 i h'
    simpa using this

/-- The fetched transaction set used as concrete input for C1: the store
order is date descending (an OUTGOING 30 on day 2 before an INCOMING 100 on
day 1). -/
def c1rows : List Row :=
  [{ ts := 2, kind := Kind.OUTGOING, amount := some 30, notes := none,
     division := none, category := none, person := none, group := none },
   { ts := 1, kind := Kind.INCOMING, amount := some 100, notes := none,
     division := none, category := none, person := none, group := none }]

/-- C1 counterexample: on `c1rows` the emitted rows are NOT in ascending
date order (they come out newest first, dates `[2, 1]`), and the day-1
income row carries running balance 70 — the prefix sum in emitted order —
not the 100 that the claimed ascending-order accumulation would give. -/
theorem chronological_ascending_counterexample :
    (¬ List.Chain' (fun a b => a.date ≤ b.date) (uiRows false true c1rows)) ∧
    (uiRows false true c1rows).map (fun r => (r.date, r.runningNum)) =
      [(2, -30), (1, 70)] := by
  constructor
  · intro hchain
    have h := List.chain'_iff_get.mp hchain 0 (by
      norm_num +decide [uiRows, matList, withRunning, matRow, c1rows])
    norm_num +decide [uiRows, matList, withRunning, matRow, c1rows] at h
  · norm_num +decide [uiRows, matList, withRunning, matRow, c1rows]

theorem c1rows_len : 0 < (uiRows false true c1rows).length := by
  rw [show uiRows false true c1rows = withRunning 0 (matList c1rows) from by simp [uiRows]]
  rw [withRunning_length]
  simp [matList, c1rows]

theorem chronological_emit_fetch_order_witness :
    ((uiRows false true c1rows).get ⟨0, c1rows_len⟩).runningNum =
      (((matList c1rows).take 1).map fun r => r.incomingNum - r.expenseNum).sum :=
  (chronological_emit_fetch_order c1rows).2.2 0 c1rows_len

/-! ## C2: the area re-sort and running balances -/

/-- C2 (amended): enabling the area re-sort keeps the emitted rows a
permutation of the unsorted emission (so the sums of the incoming and
expense cells — the totals — are unchanged) and orders them by the stable
area sort of the materialized list; but the running balances are computed
AFTER the re-sort, over the area-sorted order: each emitted row's running
balance is the prefix sum of `incomingAmount − expenseAmount` in the sorted
display order, so a given transaction's running balance generally differs
from its value with the sort off. -/
theorem area_resort_presentation (rows : List Row) :
    (((uiRows true true rows).map payload).Perm ((uiRows false true rows).map payload)) ∧
    ((uiRows true true rows).map URow.incomingNum).sum =
      ((uiRows false true rows).map URow.incomingNum).sum ∧
    ((uiRows true true rows).map URow.expenseNum).sum =
      ((uiRows false true rows).map URow.expenseNum).sum ∧
    ((uiRows true true rows).map payload = (areaSorted (matList rows)).map payload) ∧
    ∀ (i : ℕ) (h : i < (uiRows true true rows).length),
      ((uiRows true true rows).get ⟨i, h⟩).runningNum =
        (((areaSorted (matList rows)).take (i + 1)).map
          fun r => r.incomingNum - r.expenseNum).sum := by
  have hon : uiRows true true rows = withRunning 0 (areaSorted (matList rows)) := by
    simp [uiRows]
  have hoff : uiRows false true rows = withRunning 0 (matList rows) := by
    simp [uiRows]
  have hperm : (areaSorted (matList rows)).Perm (matList rows) :=
    List.perm_insertionSort _ _
  refine ⟨?_, ?_, ?_, ?_, ?_⟩
  · rw [hon, hoff, withRunning_map_payload, withRunning_map_payload]
    exact hperm.map payload
  · rw [hon, hoff, withRunning_map_inc, withRunning_map_inc]
    exact (hperm.map URow.incomingNum).sum_eq
  · rw [hon, hoff, withRunning_map_exp, withRunning_map_exp]
    exact (hperm.map URow.expenseNum).sum_eq
  · rw [hon, withRunning_map_payload]
  · intro i h
    have h' : i < (withRunning 0 (areaSorted (matList rows))).length := by
      rw [← hon]; exact h
    have hg := congrArg URow.runningNum (List.get_of_eq hon ⟨i, h⟩)
    rw [hg]
    have := withRunning_running (areaSorted (matList rows)) 0 i h'
    simpa using this

/-- The fetched transaction set used as concrete input for C2: the day-2
INCOMING 100 belongs to a division of area "b", the day-1 OUTGOING 30 to a
division of area "a", so the area sort swaps them. -/
def c2rows : List Row :=
  [{ ts := 2, kind := Kind.INCOMING, amount := some 100, notes := none,
     division := some { name := "D1", area := some "b" }, category := none,
     person := none, group := none },
   { ts := 1, kind := Kind.OUTGOING, amount := some 30, notes := none,
     division := some { name := "D2", area := some "a" }, category := none,
     person := none, group := none }]

/-- C2 counterexample: with the area sort off the day-2 row carries running
balance 100; with the sort on the same transaction carries 70, because the
balances are recomputed over the sorted order.  So a row does NOT keep its
already-computed running balance across the re-sort. -/
theorem area_resort_balance_counterexample :
    ¬ (∀ r ∈ uiRows true true c2rows, ∀ s ∈ uiRows false true c2rows,
        r.date = s.date → r.runningNum = s.runningNum) := by
  intro hAll
  have hon : uiRows true true c2rows =
      [⟨1, Kind.OUTGOING, "D2", "a", "—", "—", 0, 30, -30, "—"⟩,
       ⟨2, Kind.INCOMING, "D1", "b", "—", "—", 100, 0, 70, "—"⟩] := by
    norm_num +decide [uiRows, matList, matRow, areaSorted, withRunning,
      List.insertionSort, List.orderedInsert, c2rows]
  have hoff : uiRows false true c2rows =
      [⟨2, Kind.INCOMING, "D1", "b", "—", "—", 100, 0, 100, "—"⟩,
       ⟨1, Kind.OUTGOING, "D2", "a", "—", "—", 0, 30, 70, "—"⟩] := by
    norm_num +decide [uiRows, matList, matRow, withRunning, c2rows]
  have h := hAll ⟨2, Kind.INCOMING, "D1", "b", "—", "—", 100, 0, 70, "—"⟩
    (by rw [hon]; simp)
    ⟨2, Kind.INCOMING, "D1", "b", "—", "—", 100, 0, 100, "—"⟩
    (by rw [hoff]; simp) rfl
  norm_num at h

theorem c2rows_len : 0 < (uiRows true true c2rows).length := by
  rw [show uiRows true true c2rows = withRunning 0 (areaSorted (matList c2rows)) from by
    simp [uiRows]]
  rw [withRunning_length]
  unfold areaSorted
  rw [List.length_insertionSort]
  simp [matList, c2rows]

theorem area_resort_presentation_witness :
    ((uiRows true true c2rows).get ⟨0, c2rows_len⟩).runningNum =
      (((areaSorted (matList c2rows)).take 1).map
        fun r => r.incomingNum - r.expenseNum).sum :=
  (area_resort_presentation c2rows).2.2.2.2 0 c2rows_len

/-! ## C3: totals over the filtered row set -/

theorem matRow_incomingNum (r : Row) :
    (matRow r).incomingNum = if r.kind = Kind.INCOMING then r.amount.getD 0 else 0 := rfl

theorem matRow_expenseNum (r : Row) :
    (matRow r).expenseNum = if r.kind = Kind.OUTGOING then r.amount.getD 0 else 0 := rfl

theorem sum_filter_kind (k : Kind) (rows : List Row) :
    ((rows.filter fun r => decide (r.kind = k)).map fun r => r.amount.getD 0).sum =
      (rows.map fun r => if r.kind = k then r.amount.getD 0 else 0).sum := by
  induction rows with
  | nil => rfl
  | cons r rest ih =>
    by_cases hk : r.kind = k <;> simp [List.filter_cons, hk, ih]

theorem totalsInc_eq (rows : List Row) (h : ∀ r ∈ rows, r.amount.isSome) :
    totalsInc rows = some (sumIncoming rows) := by
  unfold totalsInc optSum
  rw [optSum_all_some _ 0 ?hall]
  case hall =>
    intro a ha
    obtain ⟨r, hr, hra⟩ := List.mem_map.mp ha
    exact hra ▸ h r (List.mem_of_mem_filter hr)
  rw [zero_add, List.map_map]
  congr 1
  have := sum_filter_kind Kind.INCOMING rows
  simp only [Function.comp_def]
  rw [this]
  simp [sumIncoming, matRow_incomingNum]

theorem totalsOut_eq (rows : List Row) (h : ∀ r ∈ rows, r.amount.isSome) :
    totalsOut rows = some (sumExpense rows) := by
  unfold totalsOut optSum
  rw [optSum_all_some _ 0 ?hall]
  case hall =>
    intro a ha
    obtain ⟨r, hr, hra⟩ := List.mem_map.mp ha
    exact hra ▸ h r (List.mem_of_mem_filter hr)
  rw [zero_add, List.map_map]
  congr 1
  have := sum_filter_kind Kind.OUTGOING rows
  simp only [Function.comp_def]
  rw [this]
  simp [sumExpense, matRow_expenseNum]

theorem matList_sum_inc (rows : List Row) :
    ((matList rows).map URow.incomingNum).sum = sumIncoming rows := by
  simp [matList, sumIncoming, List.map_map, Function.comp_def]

theorem matList_sum_exp (rows : List Row) :
    ((matList rows).map URow.expenseNum).sum = sumExpense rows := by
  simp [matList, sumExpense, List.map_map, Function.comp_def]

theorem areaSorted_sum_inc (rows : List Row) :
    ((areaSorted (matList rows)).map URow.incomingNum).sum =
      ((matList rows).map URow.incomingNum).sum :=
  ((List.perm_insertionSort _ _).map _).sum_eq

theorem areaSorted_sum_exp (rows : List Row) :
    ((areaSorted (matList rows)).map URow.expenseNum).sum =
      ((matList rows).map URow.expenseNum).sum :=
  ((List.perm_insertionSort _ _).map _).sum_eq

/-- C3: over any well-formed row set (every fetched amount parses, as the
journal schema guarantees), `incomeSum` is the sum of the materialized
incoming cells, `expenseSum` the sum of the expense cells, and
`net = incomeSum − expenseSum`; and the sums of the emitted incoming and
expense cells are the same for every combination of the display toggles
(and hence invariant to the area re-sort), because the totals are computed
over the unordered filtered set. -/
theorem totals_are_sums (rows : List Row) (h : ∀ r ∈ rows, r.amount.isSome) :
    totalsInc rows = some (sumIncoming rows) ∧
    totalsOut rows = some (sumExpense rows) ∧
    totalsNet rows = some (sumIncoming rows - sumExpense rows) ∧
    ∀ ia ic : Bool,
      ((uiRows ia ic rows).map URow.incomingNum).sum = sumIncoming rows ∧
      ((uiRows ia ic rows).map URow.expenseNum).sum = sumExpense rows := by
  refine ⟨totalsInc_eq rows h, totalsOut_eq rows h, ?_, ?_⟩
  · simp [totalsNet, totalsInc_eq rows h, totalsOut_eq rows h]
  · intro ia ic
    cases ia <;> cases ic <;>
      simp [uiRows, withRunning_map_inc, withRunning_map_exp,
        areaSorted_sum_inc, areaSorted_sum_exp, matList_sum_inc, matList_sum_exp]

/-- Concrete input for the C3 witness: two parseable rows. -/
def c3rows : List Row :=
  [{ ts := 3, kind := Kind.INCOMING, amount := some 500, notes := none,
     division := none, category := none, person := none, group := none },
   { ts := 2, kind := Kind.OUTGOING, amount := some 200, notes := none,
     division := none, category := none, person := none, group := none }]

theorem totals_are_sums_witness :
    (∀ r ∈ c3rows, r.amount.isSome) ∧ totalsInc c3rows = some (sumIncoming c3rows) :=
  ⟨by decide, (totals_are_sums c3rows (by decide)).1⟩

/-! ## C5: malformed amounts -/

/-- The failing input for C5: a single INCOMING transaction whose amount
does not parse (`Number(·)` gives NaN). -/
def c5row : Row :=
  { ts := 1, kind := Kind.INCOMING, amount := none, notes := none,
    division := none, category := none, person := none, group := none }

/-- C5 evaluation at the failing input: the materializer, the running
balances and the CSV cells all coerce the unparseable amount to 0 exactly
as the claim says, but the totals reduction `s + Number(r.amount)` has no
coercion, so `incomeSum` (and hence `net`) becomes NaN instead of 0 — the
code contradicts the lenient-coercion behaviour it implements everywhere
else. -/
theorem malformed_amount_divergence :
    totalsInc [c5row] = none ∧
    totalsNet [c5row] = none ∧
    (matRow c5row).incomingNum = 0 ∧
    (uiRows false true [c5row]).map URow.runningNum = [0] ∧
    csvCellNum (csvItem c5row).incomingNum = csvCellNum (some 0) ∧
    csvRunning 0 (csvList false [c5row]) = [0] := by
  refine ⟨?_, ?_, ?_, ?_, ?_, ?_⟩ <;>
    norm_num +decide [totalsInc, totalsOut, totalsNet, optSum, matRow, c5row,
      uiRows, matList, withRunning, csvCellNum, csvItem, csvRunning, csvList]

/-! ## C4: the three sinks' columns and totals -/

/-- C4 (amended): the UI and the PDF build their visible header lists
identically (same columns, same order, for every toggle combination), and
the PDF grand-totals row places exactly the engine's `incomeSum` and
`expenseSum` under the Incoming and Expense columns; the CSV however always
serializes the fixed ten-column header (Date, Kind, Division, Area, Person,
Group, Category, Incoming, Expense, Notes), appending Running at the end
when the running toggle is on, independent of the Kind/Area/Tagged/Notes
display toggles, and contains one record per data row — no grand-total
row. -/
theorem sink_headers_and_totals :
    (∀ k a tg rn nt : Bool, visibleHeaders k a tg rn nt = pdfHeaders k a tg rn nt) ∧
    (∀ rn : Bool, csvHeaders rn =
      ["Date", "Kind", "Division", "Area", "Person", "Group", "Category",
       "Incoming", "Expense", "Notes"] ++ (if rn then ["Running"] else [])) ∧
    (∀ (ia : Bool) (rows : List Row), (csvList ia rows).length = rows.length) ∧
    (∀ (rows : List Row) (hs : List String) (i : ℕ),
      (hs[i]? = some "Incoming" →
        (pdfTotalsRow hs rows)[i]? = some (Cell.amount (totalsInc rows))) ∧
      (hs[i]? = some "Expense" →
        (pdfTotalsRow hs rows)[i]? = some (Cell.amount (totalsOut rows)))) := by
  refine ⟨fun _ _ _ _ _ => rfl, fun _ => rfl, ?_, ?_⟩
  · intro ia rows
    cases ia <;> simp [csvList, List.length_insertionSort]
  · intro rows hs i
    constructor <;> intro h <;>
      simp +decide [pdfTotalsRow, List.getElem?_map, h]

theorem sink_headers_and_totals_witness :
    ((["Incoming"] : List String)[0]? = some "Incoming") ∧
      (pdfTotalsRow ["Incoming"] [])[0]? = some (Cell.amount (totalsInc [])) :=
  ⟨rfl, (sink_headers_and_totals.2.2.2 [] ["Incoming"] 0).1 rfl⟩

/-- C4 counterexample: at the default toggle state (only the running
balance shown) the CSV header row is the fixed eleven-column list, which is
not the six-column toggle-derived visible header list shared by the UI and
the PDF. -/
theorem csv_header_counterexample :
    csvHeaders true ≠ visibleHeaders false false false true false := by decide

/-! ## C6: empty multi-valued filters impose no restriction -/

theorem effectiveDivisionIds_nil_nil (divisions : List Division) :
    effectiveDivisionIds [] [] divisions = [] := by
  simp [effectiveDivisionIds]

theorem pgPred_nil_nil (t : Txn) : pgPred [] [] t = true := by
  simp [pgPred]

theorem pgPred_nil_person (g : List String) (t : Txn) :
    pgPred [] g t = (g.isEmpty || optIn t.groupId g) := by
  by_cases hg : g.isEmpty <;> simp [pgPred, hg]

theorem pgPred_nil_group (p : List String) (t : Txn) :
    pgPred p [] t = (p.isEmpty || optIn t.personId p) := by
  by_cases hp : p.isEmpty <;> simp [pgPred, hp]

/-- C6: an empty multi-valued filter dimension contributes no predicate to
the store query: with divisions/areas both empty the query equals the query
with the division membership structurally absent; likewise for categories;
an empty person (resp. group) selection leaves only the group (resp.
person) membership; and with every multi-valued filter empty the query
degenerates to the date-range + kind baseline — empty means "no
restriction", never "exclude all". -/
theorem empty_filter_no_restriction (sel : Selection) (divisions : List Division)
    (txns : List Txn) :
    (sel.divisionIds = [] → sel.areaValues = [] →
      runQuery sel divisions txns = queryNoDivision sel txns) ∧
    (sel.categoryIds = [] →
      runQuery sel divisions txns = queryNoCategory sel divisions txns) ∧
    (sel.personIds = [] →
      runQuery sel divisions txns = queryNoPerson sel divisions txns) ∧
    (sel.groupIds = [] →
      runQuery sel divisions txns = queryNoGroup sel divisions txns) ∧
    (sel.divisionIds = [] → sel.areaValues = [] → sel.personIds = [] →
      sel.groupIds = [] → sel.categoryIds = [] →
      runQuery sel divisions txns = dateKindOnly sel txns) := by
  refine ⟨?_, ?_, ?_, ?_, ?_⟩
  · intro h1 h2
    unfold runQuery queryNoDivision
    congr 1
    apply List.filter_congr
    intro t _
    simp [matchesQuery, h1, h2, effectiveDivisionIds_nil_nil]
  · intro h
    unfold runQuery queryNoCategory
    congr 1
    apply List.filter_congr
    intro t _
    simp [matchesQuery, h]
  · intro h
    unfold runQuery queryNoPerson
    congr 1
    apply List.filter_congr
    intro t _
    simp [matchesQuery, h, pgPred_nil_person]
  · intro h
    unfold runQuery queryNoGroup
    congr 1
    apply List.filter_congr
    intro t _
    simp [matchesQuery, h, pgPred_nil_group]
  · intro h1 h2 h3 h4 h5
    unfold runQuery dateKindOnly
    congr 1
    apply List.filter_congr
    intro t _
    simp [matchesQuery, h1, h2, h3, h4, h5, effectiveDivisionIds_nil_nil, pgPred_nil_nil]

/-- Concrete all-empty selection for the C6 witness. -/
def c6sel : Selection :=
  { dateFrom := 0, dateTo := 10, kindSel := KindSel.ALL, divisionIds := [],
    areaValues := [], personIds := [], groupIds := [], categoryIds := [] }

/-- A ledger row inside the date range for the C6 witness. -/
def c6txn : Txn :=
  { ts := 5, createdAt := 1, kind := Kind.INCOMING, divisionId := none,
    categoryId := none, personId := none, groupId := none }

theorem empty_filter_no_restriction_witness :
    c6sel.divisionIds = [] ∧
      runQuery c6sel [] [c6txn] = dateKindOnly c6sel [c6txn] ∧
      runQuery c6sel [] [c6txn] = [c6txn] :=
  ⟨rfl, (empty_filter_no_restriction c6sel [] [c6txn]).2.2.2.2 rfl rfl rfl rfl rfl,
    by decide⟩

/-! ## C10: unmatched area selection falls back to the whole ledger -/

theorem foldl_area_none (areaValues : List String) (ds : List Division) :
    ∀ acc : List String,
      (∀ d ∈ ds, jsTrim (d.area.getD "") = "" ∨ jsTrim (d.area.getD "") ∉ areaValues) →
      ds.foldl
        (fun acc d =>
          if jsTrim (d.area.getD "") ≠ "" ∧ jsTrim (d.area.getD "") ∈ areaValues then
            setAdd acc d.id
          else acc)
        acc = acc := by
  induction ds with
  | nil => intro acc _; rfl
  | cons d ds ih =>
    intro acc h
    have hd := h d (by simp)
    have hcond : ¬(jsTrim (d.area.getD "") ≠ "" ∧ jsTrim (d.area.getD "") ∈ areaValues) := by
      rintro ⟨hne, hmem⟩
      rcases hd with h1 | h2
      · exact hne h1
      · exact h2 hmem
    simp only [List.foldl_cons, if_neg hcond]
    exact ih acc fun x hx => h x (by simp [hx])

theorem effectiveDivisionIds_no_match (areaValues : List String) (divisions : List Division)
    (harea : ∀ d ∈ divisions,
      jsTrim (d.area.getD "") = "" ∨ jsTrim (d.area.getD "") ∉ areaValues) :
    effectiveDivisionIds [] areaValues divisions = [] := by
  simp only [effectiveDivisionIds, List.foldl_nil]
  by_cases hc : ¬areaValues.isEmpty ∧ ¬divisions.isEmpty
  · rw [if_pos hc]
    exact foldl_area_none areaValues divisions [] harea
  · rw [if_neg hc]

/-- C10: when no division is selected directly and no division's trimmed
area label matches a selected area value, the effective division id set is
empty, so the query applies no division/area restriction at all; with the
other filters at their defaults the report is the entire date-ranged
ledger, not zero rows. -/
theorem area_no_match_full_ledger (sel : Selection) (divisions : List Division)
    (txns : List Txn) (hdiv : sel.divisionIds = [])
    (harea : ∀ d ∈ divisions,
      jsTrim (d.area.getD "") = "" ∨ jsTrim (d.area.getD "") ∉ sel.areaValues) :
    effectiveDivisionIds sel.divisionIds sel.areaValues divisions = [] ∧
    runQuery sel divisions txns = queryNoDivision sel txns ∧
    (sel.personIds = [] → sel.groupIds = [] → sel.categoryIds = [] →
      sel.kindSel = KindSel.ALL →
      runQuery sel divisions txns = dateRangeOnly sel txns) := by
  have heff : effectiveDivisionIds sel.divisionIds sel.areaValues divisions = [] := by
    rw [hdiv]; exact effectiveDivisionIds_no_match sel.areaValues divisions harea
  refine ⟨heff, ?_, ?_⟩
  · unfold runQuery queryNoDivision
    congr 1
    apply List.filter_congr
    intro t _
    simp [matchesQuery, heff]
  · intro h1 h2 h3 h4
    unfold runQuery dateRangeOnly
    congr 1
    apply List.filter_congr
    intro t _
    simp [matchesQuery, heff, h1, h2, h3, h4, kindOk, pgPred_nil_nil]

/-- C10 witness: an area is selected ("North") but the only division's area
is "South". -/
def c10sel : Selection :=
  { dateFrom := 0, dateTo := 10, kindSel := KindSel.ALL, divisionIds := [],
    areaValues := ["North"], personIds := [], groupIds := [], categoryIds := [] }

/-- The only reference division for the C10 witness (area "South"). -/
def c10div : Division := { id := "d1", name := "Alpha", area := some "South" }

/-- A date-ranged ledger row for the C10 witness. -/
def c10txn : Txn :=
  { ts := 5, createdAt := 1, kind := Kind.OUTGOING, divisionId := some "zz",
    categoryId := none, personId := none, groupId := none }

theorem area_no_match_full_ledger_witness :
    (∀ d ∈ [c10div],
      jsTrim (d.area.getD "") = "" ∨ jsTrim (d.area.getD "") ∉ c10sel.areaValues) ∧
    effectiveDivisionIds c10sel.divisionIds c10sel.areaValues [c10div] = [] ∧
    runQuery c10sel [c10div] [c10txn] = dateRangeOnly c10sel [c10txn] ∧
    runQuery c10sel [c10div] [c10txn] = [c10txn] :=
  ⟨by decide,
   (area_no_match_full_ledger c10sel [c10div] [c10txn] rfl (by decide)).1,
   (area_no_match_full_ledger c10sel [c10div] [c10txn] rfl (by decide)).2.2 rfl rfl rfl rfl,
   by decide⟩

/-! ## C7: column width negotiation -/

theorem sum_map_ite_split {α : Type} (l : List α) (p : α → Prop) [DecidablePred p]
    (f g : α → ℚ) :
    (l.map fun x => if p x then f x else g x).sum =
      ((l.filter fun x => decide (p x)).map f).sum +
        ((l.filter fun x => decide (¬ p x)).map g).sum := by
  induction l with
  | nil => simp
  | cons x xs ih =>
    by_cases hx : p x <;> simp [List.filter_cons, hx, ih] <;> ring

theorem baseCols_split (hs : List String) :
    (baseCols hs).sum = fixedSumOf hs + scalableSumOf hs := by
  have h := sum_map_ite_split ((baseCols hs).enum)
    (fun p => p.1 ∈ fixedIdxs hs) Prod.snd Prod.snd
  simp only [ite_self] at h
  rw [List.enum_map_snd] at h
  exact h

theorem colWidths_length (hs : List String) : (colWidths hs).length = hs.length := by
  unfold colWidths
  split_ifs <;> simp [baseCols]

theorem colWidths_fixed_unchanged (hs : List String) (i : ℕ)
    (hcw : i < (colWidths hs).length) (hb : i < (baseCols hs).length)
    (hfix : i ∈ fixedIdxs hs) :
    (colWidths hs).get ⟨i, hcw⟩ = (baseCols hs).get ⟨i, hb⟩ := by
  simp only [List.get_eq_getElem]
  have hcw' : i < (colWidths hs).length := hcw
  unfold colWidths at hcw' ⊢
  split_ifs with h1 h2 h3
  · rw [List.getElem_map]
    rw [List.getElem_enum]
    simp [hfix]
  · rw [List.getElem_map]
    rw [List.getElem_enum]
    simp [hfix]
  · rfl
  · rfl

theorem colWidths_sum_shrink (hs : List String)
    (hover : innerW < (baseCols hs).sum) (hS : 0 < scalableSumOf hs)
    (hnc : noFloorClampShrink hs) :
    (colWidths hs).sum = innerW := by
  unfold colWidths
  rw [if_pos hover]
  rw [sum_map_ite_split ((baseCols hs).enum) (fun p => p.1 ∈ fixedIdxs hs)
    Prod.snd (fun p => max 50 (p.2 * shrinkFactorOf hs))]
  have h2 : (((baseCols hs).enum.filter fun p => decide (¬ p.1 ∈ fixedIdxs hs)).map
      fun p => max 50 (p.2 * shrinkFactorOf hs)) =
      ((scalablePart hs).map fun p => p.2 * shrinkFactorOf hs) := by
    apply List.map_congr_left
    intro p hp
    have hmem : p ∈ (baseCols hs).enum := List.mem_of_mem_filter hp
    have hns : p.1 ∉ fixedIdxs hs := by
      have := List.of_mem_filter hp
      simpa using this
    exact max_eq_right (hnc p hmem hns)
  rw [h2, List.sum_map_mul_right]
  have hfs : ((((baseCols hs).enum).filter fun p =>
      decide (p.1 ∈ fixedIdxs hs)).map Prod.snd).sum = fixedSumOf hs := rfl
  have hss : ((scalablePart hs).map Prod.snd).sum = scalableSumOf hs := rfl
  rw [hfs, hss]
  unfold shrinkFactorOf
  rw [if_pos hS]
  field_simp

theorem scalablePart_length_pos (hs : List String) (hS : 0 < scalableSumOf hs) :
    0 < (scalablePart hs).length := by
  rcases Nat.eq_zero_or_pos (scalablePart hs).length with h0 | h
  · have hnil : scalablePart hs = [] := List.eq_nil_of_length_eq_zero h0
    rw [scalableSumOf, hnil] at hS
    simp at hS
  · exact h

theorem colWidths_sum_grow (hs : List String)
    (hunder : (baseCols hs).sum < innerW) (hS : 0 < scalableSumOf hs)
    (hnc : noClampGrow hs) :
    (colWidths hs).sum = innerW := by
  have hnotover : ¬ innerW < (baseCols hs).sum := by linarith
  unfold colWidths
  rw [if_neg hnotover, if_pos hunder, if_pos (scalablePart_length_pos hs hS)]
  rw [sum_map_ite_split ((baseCols hs).enum) (fun p => p.1 ∈ fixedIdxs hs)
    Prod.snd (fun p =>
      min 450 (max 50 (p.2 + (innerW - (baseCols hs).sum) * growShareOf hs p.2)))]
  have h2 : (((baseCols hs).enum.filter fun p => decide (¬ p.1 ∈ fixedIdxs hs)).map
      fun p => min 450 (max 50 (p.2 + (innerW - (baseCols hs).sum) * growShareOf hs p.2))) =
      ((scalablePart hs).map
        fun p => p.2 * (1 + (innerW - (baseCols hs).sum) / scalableSumOf hs)) := by
    apply List.map_congr_left
    intro p hp
    have hmem : p ∈ (baseCols hs).enum := List.mem_of_mem_filter hp
    have hns : p.1 ∉ fixedIdxs hs := by
      have := List.of_mem_filter hp
      simpa using this
    obtain ⟨hlo, hhi⟩ := hnc p hmem hns
    rw [max_eq_right hlo, min_eq_right hhi]
    unfold growShareOf
    rw [if_pos hS]
    field_simp
    ring
  rw [h2, List.sum_map_mul_right]
  have hfs : ((((baseCols hs).enum).filter fun p =>
      decide (p.1 ∈ fixedIdxs hs)).map Prod.snd).sum = fixedSumOf hs := rfl
  have hss : ((scalablePart hs).map Prod.snd).sum = scalableSumOf hs := rfl
  rw [hfs, hss]
  have hsplit := baseCols_split hs
  have hSne : scalableSumOf hs ≠ 0 := ne_of_gt hS
  field_simp
  linarith [hsplit]

/-- C7 (amended): for every header list the numeric columns (Incoming,
Expense, Running — the `fixedIdxs`) keep their nominal 60-point widths
untouched; and the computed widths sum exactly to the usable page width in
the shrink case whenever no scalable column is clamped at the 50-point
floor, and in the grow case whenever no scalable column is clamped at the
floor or the 450-point ceiling.  (When the floor does bind — e.g. with
every optional column enabled — the sum exceeds the usable width, see the
counterexample.) -/
theorem column_width_negotiation (hs : List String) :
    (∀ (i : ℕ) (hcw : i < (colWidths hs).length) (hb : i < (baseCols hs).length),
      i ∈ fixedIdxs hs → (colWidths hs).get ⟨i, hcw⟩ = (baseCols hs).get ⟨i, hb⟩) ∧
    (innerW < (baseCols hs).sum → 0 < scalableSumOf hs → noFloorClampShrink hs →
      (colWidths hs).sum = innerW) ∧
    ((baseCols hs).sum < innerW → 0 < scalableSumOf hs → noClampGrow hs →
      (colWidths hs).sum = innerW) :=
  ⟨fun i hcw hb hfix => colWidths_fixed_unchanged hs i hcw hb hfix,
   colWidths_sum_shrink hs, colWidths_sum_grow hs⟩

/-- A shrink-case header list: running balance and notes on (nominal total
572 over the 515.28 usable width), no floor clamp. -/
def c7shrinkHs : List String := pdfHeaders false false false true true

/-- A grow-case header list: only the mandatory columns (nominal total 402
under the usable width). -/
def c7growHs : List String := pdfHeaders false false false false false

/-- The all-toggles-on header list used in the C7 counterexample. -/
def c7allHs : List String := pdfHeaders true true true true true

theorem c7shrink_base : baseCols c7shrinkHs = [70, 112, 100, 60, 60, 60, 110] := by
  decide

theorem c7shrink_fixed : fixedIdxs c7shrinkHs = [3, 4, 5] := by decide

theorem c7shrink_fixedSum : fixedSumOf c7shrinkHs = 180 := by
  norm_num +decide [fixedSumOf, fixedPart, c7shrink_base, c7shrink_fixed, widthOf,
    List.enum, List.enumFrom, List.filter_cons]

theorem c7shrink_scalSum : scalableSumOf c7shrinkHs = 392 := by
  norm_num +decide [scalableSumOf, scalablePart, c7shrink_base, c7shrink_fixed, widthOf,
    List.enum, List.enumFrom, List.filter_cons]

theorem c7shrink_factor : shrinkFactorOf c7shrinkHs = 4191 / 4900 := by
  unfold shrinkFactorOf
  rw [c7shrink_scalSum, c7shrink_fixedSum, if_pos (by norm_num)]
  norm_num [innerW, pageW]

theorem c7shrink_over : innerW < (baseCols c7shrinkHs).sum := by
  rw [c7shrink_base]
  norm_num [innerW, pageW]

theorem c7shrink_pos : 0 < scalableSumOf c7shrinkHs := by
  rw [c7shrink_scalSum]
  norm_num

theorem c7shrink_noclamp : noFloorClampShrink c7shrinkHs := by
  intro p hp hnf
  rw [c7shrink_fixed] at hnf
  rw [c7shrink_factor]
  rw [c7shrink_base] at hp
  norm_num [List.enum, List.enumFrom] at hp
  rcases hp with h|h|h|h|h|h|h <;> subst h <;>
    first
      | exact absurd (by decide) hnf
      | norm_num

theorem c7grow_base : baseCols c7growHs = [70, 112, 100, 60, 60] := by decide

theorem c7grow_fixed : fixedIdxs c7growHs = [3, 4] := by decide

theorem c7grow_scalSum : scalableSumOf c7growHs = 282 := by
  norm_num +decide [scalableSumOf, scalablePart, c7grow_base, c7grow_fixed, widthOf,
    List.enum, List.enumFrom, List.filter_cons]

theorem c7grow_under : (baseCols c7growHs).sum < innerW := by
  rw [c7grow_base]
  norm_num [innerW, pageW]

theorem c7grow_pos : 0 < scalableSumOf c7growHs := by
  rw [c7grow_scalSum]
  norm_num

theorem c7grow_noclamp : noClampGrow c7growHs := by
  intro p hp hnf
  rw [c7grow_fixed] at hnf
  unfold growShareOf
  rw [c7grow_scalSum, c7grow_base, if_pos (by norm_num)]
  rw [c7grow_base] at hp
  norm_num [List.enum, List.enumFrom] at hp
  rcases hp with h|h|h|h|h <;> subst h <;>
    first
      | exact absurd (by decide) hnf
      | constructor <;> norm_num [innerW, pageW]

theorem c7cwlen : 3 < (colWidths c7shrinkHs).length := by
  rw [colWidths_length]
  decide

theorem c7blen : 3 < (baseCols c7shrinkHs).length := by
  rw [baseCols, List.length_map]
  decide

theorem column_width_negotiation_witness :
    (innerW < (baseCols c7shrinkHs).sum ∧ (colWidths c7shrinkHs).sum = innerW) ∧
    ((baseCols c7growHs).sum < innerW ∧ (colWidths c7growHs).sum = innerW) ∧
    (3 ∈ fixedIdxs c7shrinkHs ∧
      (colWidths c7shrinkHs).get ⟨3, c7cwlen⟩ = (baseCols c7shrinkHs).get ⟨3, c7blen⟩) :=
  ⟨⟨c7shrink_over,
    (column_width_negotiation c7shrinkHs).2.1 c7shrink_over c7shrink_pos c7shrink_noclamp⟩,
   ⟨c7grow_under,
    (column_width_negotiation c7growHs).2.2 c7grow_under c7grow_pos c7grow_noclamp⟩,
   ⟨by decide,
    (column_width_negotiation c7shrinkHs).1 3 c7cwlen c7blen (by decide)⟩⟩

theorem c7all_base : baseCols c7allHs = [70, 60, 112, 80, 92, 100, 60, 60, 60, 110] := by
  decide

theorem c7all_fixed : fixedIdxs c7allHs = [6, 7, 8] := by decide

theorem c7all_fixedSum : fixedSumOf c7allHs = 180 := by
  norm_num +decide [fixedSumOf, fixedPart, c7all_base, c7all_fixed, widthOf,
    List.enum, List.enumFrom, List.filter_cons]

theorem c7all_scalSum : scalableSumOf c7allHs = 624 := by
  norm_num +decide [scalableSumOf, scalablePart, c7all_base, c7all_fixed, widthOf,
    List.enum, List.enumFrom, List.filter_cons]

theorem c7all_factor : shrinkFactorOf c7allHs = 1397 / 2600 := by
  unfold shrinkFactorOf
  rw [c7all_scalSum, c7all_fixedSum, if_pos (by norm_num)]
  norm_num [innerW, pageW]

/-- C7 counterexample: with every optional column enabled the nominal total
(804) overflows the page, four scalable columns are clamped at the 50-point
floor, and the computed widths sum to ≈553.01 — more than one unit above
the 515.28-point usable width, refuting the within-one-unit claim. -/
theorem width_sum_tolerance_counterexample :
    innerW + 1 < (colWidths c7allHs).sum := by
  have hover : innerW < (baseCols c7allHs).sum := by
    rw [c7all_base]
    norm_num [innerW, pageW]
  unfold colWidths
  rw [if_pos hover, c7all_factor, c7all_fixed, c7all_base]
  norm_num +decide [List.enum, List.enumFrom, innerW, pageW]

end UnionExpense
